import Mathlib

/-!
Verification of the GPTQ core of `model_optimization` against its
natural-language specification.  The Python sources under
`model_compression_toolkit/gptq/` are shallowly embedded below: tensors are
lists of rationals, machine floats are modelled by exact rational
arithmetic, and fallible numpy operations return `Option`.  Helper
routines that live outside the sampled sources (the `quant_utils`
straight-through operators, the logger, the node-config records) are
modelled from the specification text and are marked as such in their
doc comments.
-/

namespace GPTQ

/-! Section: Straight-through quantization helpers (spec section 4.2) -/

/-- Modelled from the spec: `ste_clip` — forward pass of the
straight-through clipping operator, `clip(x, min_val, max_val)`
(spec 4.2: "clip implemented with a straight-through gradient:
forward = clip").  Argument order follows the Python call sites
`ste_clip(x, max_val, min_val)`; the default `min_val` is `-max_val`. -/
def ste_clip (x max_val min_val : ℚ) : ℚ :=
  max min_val (min max_val x)

/-- Modelled from the spec: `ste_round` — forward pass of the
straight-through rounding operator: round to the nearest integer
(spec 4.2 step 3/4; the backend's tie-breaking rule does not affect
any property proved here). -/
def ste_round (x : ℚ) : ℚ :=
  ((round x : ℤ) : ℚ)

/-- Modelled from the spec: `calculate_delta` — step size
`delta = t / 2^(b - signed)` (spec 4.2 step 2). -/
def calculate_delta (t : ℚ) (num_bits : ℕ) (sgn : Bool) : ℚ :=
  t / 2 ^ (num_bits - (if sgn then 1 else 0))

/-- Fuel-bounded search upward: starting from `acc`, keep doubling until
the accumulator reaches `t`.  Used to compute the smallest power of two
that is at least `t` for `1 ≤ t`. -/
def pow2UpAux : ℕ → ℚ → ℚ → ℚ
  | 0, _, acc => acc
  | n + 1, t, acc => if t ≤ acc then acc else pow2UpAux n t (2 * acc)

/-- Fuel-bounded search downward: starting from `acc`, keep halving while
the halved value still covers `t`.  Used to compute the smallest power of
two that is at least `t` for `t < 1`. -/
def pow2DownAux : ℕ → ℚ → ℚ → ℚ
  | 0, _, acc => acc
  | n + 1, t, acc => if acc / 2 < t then acc else pow2DownAux n t (acc / 2)

/-- Smallest power of two that is at least `t`, for positive `t`. -/
def ceilPow2 (t : ℚ) : ℚ :=
  if 1 ≤ t then pow2UpAux t.num.toNat t 1 else pow2DownAux t.den t 1

/-- Largest power of two that is at most `t`, for positive `t`. -/
def floorPow2 (t : ℚ) : ℚ :=
  let c := ceilPow2 t
  if c ≤ t then c else c / 2

/-- Modelled from the spec: `power_of_two_max` — "snap `t` to the nearest
power of two" (spec 4.2 step 1).  On an exact tie the larger power is
taken; the spec does not fix the tie-breaking rule, and no claim below
depends on it. -/
def power_of_two_max (t : ℚ) : ℚ :=
  let c := ceilPow2 t
  let f := floorPow2 t
  if c - t ≤ t - f then c else f

/-! Section: The STE symmetric quantizer
(`gptq/keras/quantizer/ste_rounding/symmetric_ste.py`) -/

/-- Scalar (per-element) forward computation of
`pertubation_symmetric_quantizer` from `symmetric_ste.py` (lines 35-66).
`x` is one element of the input tensor, `a` the matching element of the
auxiliary perturbation tensor, `t` the (broadcast) threshold.  All
tensor operations in the source are elementwise under broadcasting, so
the tensor version below is the pointwise lift of this function. -/
def pertubation_symmetric_quantizer (x a t : ℚ) (num_bits : ℕ)
    (sgn power_of_two : Bool) (max_lsbs_change : ℚ) : ℚ :=
  let max_tensor := if power_of_two then power_of_two_max t else t
  let delta := calculate_delta max_tensor num_bits sgn
  let input_tensor_int : ℚ := ((round (x / delta) : ℤ) : ℚ)
  let tensor_q :=
    ste_round (input_tensor_int +
      ste_clip a (max_lsbs_change * delta) (-(max_lsbs_change * delta)) / delta)
  let s : ℕ := if sgn then 1 else 0
  let min_int : ℤ := -(s : ℤ) * 2 ^ (num_bits - s)
  let max_int : ℤ := 2 ^ (num_bits - s) - 1
  delta * ste_clip tensor_q (max_int : ℚ) (min_int : ℚ)

/-- Tensor version of `pertubation_symmetric_quantizer`: the elementwise
lift over the input tensor and the auxiliary tensor (which share a
shape in the source; the threshold broadcasts). -/
def pertubation_symmetric_quantizer_t (x a : List ℚ) (t : ℚ) (num_bits : ℕ)
    (sgn power_of_two : Bool) (max_lsbs_change : ℚ) : List ℚ :=
  List.zipWith
    (fun xi ai => pertubation_symmetric_quantizer xi ai t num_bits sgn
      power_of_two max_lsbs_change) x a

/-- Forward path of `STEWeightGPTQQuantizer.__call__` (symmetric_ste.py
lines 160-179), restricted to the arguments that reach
`pertubation_symmetric_quantizer`: the per-channel branch passes the
configured `max_lsbs_change`, while the per-tensor branch omits the
argument, so the Python default `max_lsbs_change = 1` applies.  The
per-channel reshaping of the threshold only arranges broadcasting and is
represented here by the broadcast scalar threshold. -/
def ste_weight_quantizer_call (per_channel : Bool) (max_lsbs_change : ℚ)
    (num_bits : ℕ) (power_of_two : Bool) (x a : List ℚ) (t : ℚ) : List ℚ :=
  if per_channel then
    pertubation_symmetric_quantizer_t x a t num_bits true power_of_two
      max_lsbs_change
  else
    pertubation_symmetric_quantizer_t x a t num_bits true power_of_two 1

/-! Section: Properties of the STE quantizer -/

/-- Any element of a `zipWith` image is the image of a pair of elements. -/
theorem exists_of_mem_zipWith {α β γ : Type} {f : α → β → γ} :
    ∀ {l₁ : List α} {l₂ : List β} {c : γ}, c ∈ List.zipWith f l₁ l₂ →
      ∃ u v, c = f u v
  | [], _, _, h => by simp at h
  | _ :: _, [], _, h => by simp at h
  | u :: l₁, v :: l₂, c, h => by
      rcases List.mem_cons.1 h with h | h
      · exact ⟨u, v, h⟩
      · exact exists_of_mem_zipWith h

/-- The signed, non-snapping quantizer output is the step size times an
integer code that the final straight-through clip keeps inside the
representable signed range `[-2^(b-1), 2^(b-1) - 1]`. -/
theorem pert_scalar_code (b : ℕ) (t x a m : ℚ) :
    ∃ k : ℤ, pertubation_symmetric_quantizer x a t b true false m
      = (t / 2 ^ (b - 1)) * (k : ℚ) ∧
        -(2 ^ (b - 1)) ≤ k ∧ k ≤ 2 ^ (b - 1) - 1 := by
  simp only [pertubation_symmetric_quantizer, calculate_delta, ste_round,
    ste_clip, if_true, eq_self_iff_true, Bool.false_eq_true, if_false]
  rw [← Int.cast_min, ← Int.cast_max]
  refine ⟨_, rfl, ?_, ?_⟩
  · have h1 : (-(↑(1 : ℕ)) * 2 ^ (b - 1) : ℤ) = -2 ^ (b - 1) := by
      push_cast; ring
    rw [h1]
    exact le_max_left _ _
  · have h0 : (0 : ℤ) < 2 ^ (b - 1) := by positivity
    exact max_le (by push_cast; omega)
      (le_trans (min_le_left _ _) (le_refl _))

/-- Scalar range/step lemma behind claim C1: with signedness on and
power-of-two snapping off, the quantizer output is within `[-t, t]` and
is an integer multiple of `delta = t / 2^(b-1)`. -/
theorem pert_scalar_spec (b : ℕ) (t x a m : ℚ) (hb : 1 ≤ b) (ht : 0 < t) :
    -t ≤ pertubation_symmetric_quantizer x a t b true false m ∧
      pertubation_symmetric_quantizer x a t b true false m ≤ t ∧
      ∃ k : ℤ, pertubation_symmetric_quantizer x a t b true false m
        = (k : ℚ) * (t / 2 ^ (b - 1)) := by
  obtain ⟨k, hEq, hlo, hhi⟩ := pert_scalar_code b t x a m
  have h2 : (0 : ℚ) < 2 ^ (b - 1) := by positivity
  have hd : 0 < t / 2 ^ (b - 1) := div_pos ht h2
  have hdT : t / 2 ^ (b - 1) * 2 ^ (b - 1) = t := div_mul_cancel₀ t h2.ne'
  have hlo2 : -((2 : ℚ) ^ (b - 1)) ≤ (k : ℚ) := by exact_mod_cast hlo
  have hhi2 : (k : ℚ) ≤ (2 : ℚ) ^ (b - 1) - 1 := by exact_mod_cast hhi
  rw [hEq]
  refine ⟨?_, ?_, ⟨k, mul_comm _ _⟩⟩
  · nlinarith [mul_le_mul_of_nonneg_left hlo2 hd.le]
  · nlinarith [mul_le_mul_of_nonneg_left hhi2 hd.le]

/-- Claim C1 as frozen is false at a concrete input: with power-of-two
snapping enabled (`power_of_two = True`) and threshold `t = 7/2`, bit
width `2`, input `-4`, auxiliary `0`, the signed quantizer outputs `-4`,
which lies outside `[-t, t] = [-7/2, 7/2]`. -/
theorem C1_counterexample :
    pertubation_symmetric_quantizer_t [-4] [0] (7 / 2) 2 true true 1 = [-4] ∧
      ¬ (-(7 / 2 : ℚ) ≤ -4) := by
  have hp : power_of_two_max (7 / 2) = 4 := by
    norm_num [power_of_two_max, ceilPow2, floorPow2, pow2UpAux, pow2DownAux]
  have h1 : round ((-2 : ℚ)) = -2 := by norm_num [round_eq, Int.floor_eq_iff]
  constructor
  · simp only [pertubation_symmetric_quantizer_t,
      pertubation_symmetric_quantizer, calculate_delta, ste_round, ste_clip,
      hp, List.zipWith]
    norm_num [h1]
  · norm_num

/-- Claim C1 (amended): for every bit width `b ≥ 1`, threshold `t > 0`,
input tensor, auxiliary perturbation and `max_lsbs_change` bound, the
forward output of the signed STE symmetric quantizer with power-of-two
snapping disabled lies within `[-t, t]` and every element is an exact
integer multiple of `delta = t / 2^(b-1)`.  (With snapping enabled the
same bounds hold for the snapped threshold, not for the raw `t`.) -/
theorem C1_pertubation_quantizer_range_step (b : ℕ) (t m : ℚ) (x a : List ℚ)
    (hb : 1 ≤ b) (ht : 0 < t) :
    ∀ y ∈ pertubation_symmetric_quantizer_t x a t b true false m,
      -t ≤ y ∧ y ≤ t ∧ ∃ k : ℤ, y = (k : ℚ) * (t / 2 ^ (b - 1)) := by
  intro y hy
  obtain ⟨xi, ai, rfl⟩ := exists_of_mem_zipWith hy
  exact pert_scalar_spec b t xi ai m hb ht

/-- Witness for claim C1's amended theorem at `b = 2`, `t = 1`,
`x = [1/3]`, `a = [0]`: the output element `1/2` satisfies the range and
step properties. -/
theorem C1_witness :
    -(1 : ℚ) ≤ 1 / 2 ∧ (1 / 2 : ℚ) ≤ 1 ∧
      ∃ k : ℤ, (1 / 2 : ℚ) = (k : ℚ) * (1 / 2 ^ (2 - 1)) :=
  C1_pertubation_quantizer_range_step 2 1 1 [1 / 3] [0]
    (by norm_num) (by norm_num) (1 / 2) (by
      have h1 : round ((2 : ℚ) / 3) = 1 := by
        norm_num [round_eq, Int.floor_eq_iff]
      have h2 : round ((1 : ℚ)) = 1 := by
        norm_num [round_eq, Int.floor_eq_iff]
      simp only [pertubation_symmetric_quantizer_t,
        pertubation_symmetric_quantizer, calculate_delta, ste_round, ste_clip,
        List.zipWith]
      norm_num [h1, h2])

/-- Claim C9: the per-tensor branch of `STEWeightGPTQQuantizer.__call__`
never passes the configured `max_lsbs_change` to the quantization
operator — its output is identical to the output with the default bound
of one LSB for every configuration — while the per-channel branch does
use the configured bound (exhibited by a concrete disagreement at bound
3 versus 1). -/
theorem C9_per_tensor_ignores_max_lsbs_change :
    (∀ (m : ℚ) (b : ℕ) (pot : Bool) (x a : List ℚ) (t : ℚ),
        ste_weight_quantizer_call false m b pot x a t
          = ste_weight_quantizer_call false 1 b pot x a t) ∧
      ste_weight_quantizer_call true 3 8 false [0] [1] 1
        ≠ ste_weight_quantizer_call true 1 8 false [0] [1] 1 := by
  constructor
  · intro m b pot x a t
    simp only [ste_weight_quantizer_call, Bool.false_eq_true, if_false]
  · have h0 : round ((0 : ℚ)) = 0 := by norm_num [round_eq, Int.floor_eq_iff]
    have h1 : round ((1 : ℚ)) = 1 := by norm_num [round_eq, Int.floor_eq_iff]
    have h3 : round ((3 : ℚ)) = 3 := by norm_num [round_eq, Int.floor_eq_iff]
    simp only [ste_weight_quantizer_call, pertubation_symmetric_quantizer_t,
      pertubation_symmetric_quantizer, calculate_delta, ste_round, ste_clip,
      List.zipWith]
    norm_num [h0, h1, h3]

/-! Section: Optimizer grouping (`gptq/common/gptq_training.py`, lines 75-113) -/

/-- The optimizer-related fields of `GradientPTQConfig` that
`get_optimizer_with_param` reads.  Optimizer handles are opaque and
modelled as natural numbers; an unset optional optimizer is `none`. -/
structure OptimConfig where
  optimizer : ℕ
  optimizer_bias : Option ℕ
  optimizer_quantization_parameter : Option ℕ
  optimizer_rest : Option ℕ
  train_bias : Bool
  quantization_parameters_learning : Bool
deriving DecidableEq, Repr

/-- Result of `get_optimizer_with_param`: the list of
(optimizer, parameter-list) pairs the method returns, and the sequence
of messages it sends through `Logger.error`.  Modelled from the spec:
the logger is not part of the sampled sources; per spec section 9,
`Logger.error` "logs an error but does not halt", so it is modelled as
appending a message and continuing. -/
structure OptimGroups where
  groups : List (Option ℕ × List ℕ)
  errors : List String
deriving DecidableEq, Repr

/-- Error text logged by both fallback branches of
`get_optimizer_with_param` (the source logs the same message twice). -/
def missing_rest_msg : String :=
  "To enable bias micro training an additional optimizer is required, please define the optimizer_rest"

/-- Embedding of `GPTQTrainer.get_optimizer_with_param`
(`gptq/common/gptq_training.py`, lines 75-113).  Parameter tensors are
opaque and modelled as natural numbers.  The primary group always holds
the auxiliary weights; the bias and quantization-parameter groups are
emitted either with their dedicated optimizer or folded into the
catch-all rest group, whose optimizer may be absent (`none`).  Note
that, as in the source, the rest-optimizer check of the
quantization-parameter branch runs even when a dedicated
quantization-parameter optimizer is set. -/
def get_optimizer_with_param (cfg : OptimConfig)
    (flattened_trainable_weights flattened_bias_weights
      trainable_quantization_parameters : List ℕ) : OptimGroups :=
  let w2train := flattened_trainable_weights
  let base : List (Option ℕ × List ℕ) := [(some cfg.optimizer, w2train)]
  if cfg.train_bias || cfg.quantization_parameters_learning then
    let bias_part : List (Option ℕ × List ℕ) × List ℕ × List String :=
      if cfg.train_bias then
        match cfg.optimizer_bias with
        | some ob => ([(some ob, flattened_bias_weights)], [], [])
        | none =>
            ([], flattened_bias_weights,
              if cfg.optimizer_rest = none then [missing_rest_msg] else [])
      else ([], [], [])
    let qp_part : List (Option ℕ × List ℕ) × List ℕ × List String :=
      if cfg.quantization_parameters_learning then
        let errs := if cfg.optimizer_rest = none then [missing_rest_msg] else []
        match cfg.optimizer_quantization_parameter with
        | some oq => ([(some oq, trainable_quantization_parameters)], [], errs)
        | none => ([], trainable_quantization_parameters, errs)
      else ([], [], [])
    { groups := base ++ bias_part.1 ++ qp_part.1
        ++ [(cfg.optimizer_rest, bias_part.2.1 ++ qp_part.2.1)],
      errors := bias_part.2.2 ++ qp_part.2.2 }
  else
    { groups := base, errors := [] }

/-- All parameter tensors across the returned optimizer groups, in
order. -/
def group_params (r : OptimGroups) : List ℕ :=
  (r.groups.map Prod.snd).flatten

/-- Claim C2 as frozen is false at a concrete input: with bias training
enabled, no dedicated bias optimizer and no catch-all rest optimizer,
`get_optimizer_with_param` does not raise and setup does not halt — the
call returns normally, yielding a primary group and a rest group bound
to no optimizer, with the missing-optimizer message merely logged. -/
theorem C2_counterexample :
    get_optimizer_with_param ⟨0, none, none, none, true, false⟩ [1] [2] []
      = { groups := [(some 0, [1]), (none, [2])],
          errors := [missing_rest_msg] } := by
  rfl

/-- Claim C2 (amended): when either trigger of the claim holds — bias
training enabled without a dedicated bias optimizer, or threshold
learning enabled — and no catch-all rest optimizer is configured,
`get_optimizer_with_param` logs the missing-optimizer error but does
not halt: it returns normally, and the fallback parameters (the bias
weights when bias training has no dedicated optimizer, the quantization
parameters when threshold learning has no dedicated optimizer) are
grouped under the absent (`None`) rest optimizer, so failure can only
surface later when that group's optimizer is used. -/
theorem C2_missing_rest_logs_error (cfg : OptimConfig) (aux bias qp : List ℕ)
    (htrig : (cfg.train_bias = true ∧ cfg.optimizer_bias = none)
      ∨ cfg.quantization_parameters_learning = true)
    (hor : cfg.optimizer_rest = none) :
    (get_optimizer_with_param cfg aux bias qp).errors ≠ [] ∧
      (none,
        (if cfg.train_bias = true ∧ cfg.optimizer_bias = none
          then bias else [])
          ++ (if cfg.quantization_parameters_learning = true
                ∧ cfg.optimizer_quantization_parameter = none
              then qp else []))
        ∈ (get_optimizer_with_param cfg aux bias qp).groups := by
  rcases cfg with ⟨o, ob, oq, orr, tb, qpl⟩
  simp only at hor
  subst hor
  cases tb <;> cases qpl <;> rcases ob with _ | ob <;> rcases oq with _ | oq <;>
    simp_all [get_optimizer_with_param, missing_rest_msg]

/-- Witness for claim C2's amended theorem at a concrete configuration
(bias training on with no bias optimizer, threshold learning on with a
dedicated optimizer, no rest optimizer): the bias weights fall back to
the rest group bound to no optimizer and the error is logged. -/
theorem C2_witness :
    (get_optimizer_with_param ⟨0, none, some 5, none, true, true⟩
      [1] [2] [3]).errors ≠ [] ∧
      (none,
        (if (true = true ∧ (none : Option ℕ) = none) then [2] else [])
          ++ (if (true = true ∧ (some 5 : Option ℕ) = none)
              then [3] else []))
        ∈ (get_optimizer_with_param ⟨0, none, some 5, none, true, true⟩
            [1] [2] [3]).groups :=
  C2_missing_rest_logs_error ⟨0, none, some 5, none, true, true⟩
    [1] [2] [3] (Or.inl ⟨rfl, rfl⟩) rfl

/-- Claim C4: for every configuration of bias training, threshold
learning and optimizer bindings, if the incoming parameter lists have no
duplicates then the groups returned by `get_optimizer_with_param` are
pairwise disjoint and their union is exactly the auxiliary weights, plus
the bias weights iff bias training is enabled, plus the quantization
parameters iff threshold learning is enabled. -/
theorem C4_optimizer_groups_partition (cfg : OptimConfig)
    (aux bias qp : List ℕ) (hnd : (aux ++ bias ++ qp).Nodup) :
    (group_params (get_optimizer_with_param cfg aux bias qp)).Nodup ∧
      ∀ x, x ∈ group_params (get_optimizer_with_param cfg aux bias qp) ↔
        (x ∈ aux ∨ (cfg.train_bias = true ∧ x ∈ bias)
          ∨ (cfg.quantization_parameters_learning = true ∧ x ∈ qp)) := by
  rcases cfg with ⟨o, ob, oq, orr, tb, qpl⟩
  cases tb <;> cases qpl <;> cases ob <;> cases oq <;>
    simp_all [get_optimizer_with_param, group_params, List.nodup_append,
      List.disjoint_left, List.mem_append] <;>
    tauto

/-- Witness for claim C4's theorem at a concrete configuration with all
three parameter kinds present. -/
theorem C4_witness :
    (group_params (get_optimizer_with_param ⟨0, some 7, none, some 9, true, true⟩
        [1, 2] [3] [4])).Nodup ∧
      ∀ x, x ∈ group_params (get_optimizer_with_param
          ⟨0, some 7, none, some 9, true, true⟩ [1, 2] [3] [4]) ↔
        (x ∈ [1, 2] ∨ (true = true ∧ x ∈ [3]) ∨ (true = true ∧ x ∈ [4])) :=
  C4_optimizer_groups_partition ⟨0, some 7, none, some 9, true, true⟩
    [1, 2] [3] [4] (by decide)

/-! Section: Jacobian-based loss weights
(`GPTQTrainer.compute_jacobian_based_weights`,
`gptq/common/gptq_training.py`, lines 116-162) -/

/-- Elementwise sum of two vectors (`numpy` broadcasting over rows of
equal length). -/
def addVec (u v : List ℚ) : List ℚ :=
  List.zipWith (· + ·) u v

/-- Column-wise sum of a list of rows, as computed by `np.mean(..., axis=0)`
before division. -/
def column_sum : List (List ℚ) → List ℚ
  | [] => []
  | [r] => r
  | r :: rs => addVec r (column_sum rs)

/-- `np.mean(points, axis=0)`: column-wise mean over the per-image score
vectors. -/
def column_mean (rows : List (List ℚ)) : List ℚ :=
  (column_sum rows).map (· / (rows.length : ℚ))

/-- Insert a value into a sorted list, keeping it sorted. -/
def insSorted (x : ℚ) : List ℚ → List ℚ
  | [] => [x]
  | y :: ys => if x ≤ y then x :: y :: ys else y :: insSorted x ys

/-- Insertion sort for rational lists (ascending). -/
def sortQ : List ℚ → List ℚ
  | [] => []
  | x :: xs => insSorted x (sortQ xs)

/-- `np.partition(v, 1)[1]`: the second order statistic (second-smallest
element, counting duplicates).  `none` when the vector has fewer than two
entries, where `np.partition` raises. -/
def second_smallest (v : List ℚ) : Option ℚ :=
  (sortQ v).drop 1 |>.head?

/-- `np.where(mean != 0, mean, np.partition(mean, 1)[1])`: replace every
exact-zero entry by the second order statistic of the vector. -/
def zero_replace (v : List ℚ) : Option (List ℚ) :=
  (second_smallest v).map (fun s => v.map (fun x => if x ≠ 0 then x else s))

/-- Minimum of a rational list (`np.min`); `none` on the empty list. -/
def minQ : List ℚ → Option ℚ
  | [] => none
  | x :: xs => some (xs.foldl min x)

/-- Embedding of `GPTQTrainer.compute_jacobian_based_weights`
(lines 116-162).  `per_image` holds one per-compare-point score vector
per sample image (the result of the framework's `model_grad`, opaque
here); `log10` abstracts the real-valued `np.log10` as an arbitrary
total function on the entries, which is sound because every property
proved below holds for any such function.  The `use_jac` path averages
the per-image scores, optionally applies the log-normalization
(zero-replacement, `log10`, shift by the minimum); the disabled path
returns the uniform vector `1/num_compare_points`. -/
def compute_jacobian_based_weights (use_jac log_norm : Bool)
    (num_compare_points : ℕ) (per_image : List (List ℚ))
    (log10 : ℚ → ℚ) : Option (List ℚ) :=
  if use_jac then
    let mean_jacobian_weights := column_mean per_image
    if log_norm then
      match zero_replace mean_jacobian_weights with
      | none => none
      | some replaced =>
        let log_weights := replaced.map log10
        match minQ log_weights with
        | none => none
        | some mn => some (log_weights.map (· - mn))
    else
      some mean_jacobian_weights
  else
    some (List.replicate num_compare_points
      (1 / (num_compare_points : ℚ)))

/-- Inserting into a sorted list grows the length by one. -/
theorem insSorted_length (x : ℚ) (l : List ℚ) :
    (insSorted x l).length = l.length + 1 := by
  induction l with
  | nil => rfl
  | cons y ys ih => by_cases h : x ≤ y <;> simp [insSorted, h, ih]

/-- Insertion sort preserves length. -/
theorem sortQ_length (l : List ℚ) : (sortQ l).length = l.length := by
  induction l with
  | nil => rfl
  | cons x xs ih => simp [sortQ, insSorted_length, ih]

/-- A vector with at least two entries has a second order statistic
(`np.partition(v, 1)[1]` does not raise). -/
theorem second_smallest_isSome (v : List ℚ) (h2 : 2 ≤ v.length) :
    ∃ s, second_smallest v = some s := by
  rcases hd : (sortQ v).drop 1 with _ | ⟨s, rest⟩
  · exfalso
    have hl := congrArg List.length hd
    simp [sortQ_length] at hl
    omega
  · exact ⟨s, by simp [second_smallest, hd]⟩

/-- Folding `min` commutes with a uniform shift of all entries. -/
theorem foldl_min_sub (l : List ℚ) (x c : ℚ) :
    (l.map (· - c)).foldl min (x - c) = l.foldl min x - c := by
  induction l generalizing x with
  | nil => rfl
  | cons y ys ih =>
      simp only [List.map_cons, List.foldl_cons, min_sub_sub_right]
      exact ih (min x y)

/-- The minimum of a uniformly shifted vector is the shifted minimum. -/
theorem minQ_map_sub (l : List ℚ) (c : ℚ) :
    minQ (l.map (· - c)) = (minQ l).map (· - c) := by
  cases l with
  | nil => rfl
  | cons x xs => simp [minQ, foldl_min_sub]

/-- Claim C3: with jacobian-based weighting enabled and `log_norm` true,
`compute_jacobian_based_weights` replaces exact-zero entries of the
per-point average by the vector's second-smallest value, applies `log10`
and shifts by the minimum, so whenever the average vector has at least
two entries (the domain of `np.partition(·, 1)`) the returned weight
vector exists and its minimum is exactly 0 — for any entrywise `log10`
function. -/
theorem C3_log_norm_min_zero (per_image : List (List ℚ)) (log10 : ℚ → ℚ)
    (n : ℕ) (h2 : 2 ≤ (column_mean per_image).length) :
    ∃ w, compute_jacobian_based_weights true true n per_image log10 = some w ∧
      minQ w = some 0 := by
  obtain ⟨s, hs⟩ := second_smallest_isSome (column_mean per_image) h2
  have hzr : zero_replace (column_mean per_image)
      = some ((column_mean per_image).map
          (fun x => if x ≠ 0 then x else s)) := by
    simp [zero_replace, hs]
  set replaced := (column_mean per_image).map (fun x => if x ≠ 0 then x else s)
    with hrep
  have hlen : replaced.length = (column_mean per_image).length := by
    simp [hrep]
  have hne : replaced.map log10 ≠ [] := by
    intro hcon
    have hl : replaced.length = 0 := by simpa using congrArg List.length hcon
    rw [hlen] at hl
    omega
  obtain ⟨mn, hmn⟩ : ∃ mn, minQ (replaced.map log10) = some mn := by
    rcases hlw : replaced.map log10 with _ | ⟨a, as⟩
    · exact absurd hlw hne
    · exact ⟨as.foldl min a, by simp [minQ]⟩
  refine ⟨(replaced.map log10).map (· - mn), ?_, ?_⟩
  · simp [compute_jacobian_based_weights, hzr, hmn]
  · rw [minQ_map_sub, hmn]
    simp

/-- Witness for claim C3's theorem: averages `[0, 1]` (one sample, two
compare points) with `log10` abstracted by the identity, giving weight
vector `[0, 0]` with minimum 0. -/
theorem C3_witness :
    ∃ w, compute_jacobian_based_weights true true 2 [[0, 1]] id = some w ∧
      minQ w = some 0 :=
  C3_log_norm_min_zero [[0, 1]] id 2
    (by norm_num [column_mean, column_sum])

/-- Claim C7: with jacobian-based weighting disabled, for every graph
with `n ≥ 1` compare points `compute_jacobian_based_weights` returns the
vector of length `n` whose entries are all exactly `1/n` and whose sum
is 1. -/
theorem C7_uniform_weights (n : ℕ) (hn : 1 ≤ n) (lg : Bool)
    (per_image : List (List ℚ)) (log10 : ℚ → ℚ) :
    ∃ w, compute_jacobian_based_weights false lg n per_image log10 = some w ∧
      w.length = n ∧ (∀ x ∈ w, x = 1 / (n : ℚ)) ∧ w.sum = 1 := by
  refine ⟨List.replicate n (1 / (n : ℚ)), rfl, by simp, ?_, ?_⟩
  · intro x hx
    exact List.eq_of_mem_replicate hx
  · have hn0 : (n : ℚ) ≠ 0 := by positivity
    simp [List.sum_replicate, nsmul_eq_mul]
    field_simp

/-- Witness for claim C7's theorem at `n = 3`. -/
theorem C7_witness :
    ∃ w, compute_jacobian_based_weights false false 3 [] id = some w ∧
      w.length = 3 ∧ (∀ x ∈ w, x = 1 / (3 : ℚ)) ∧ w.sum = 1 :=
  C7_uniform_weights 3 (by norm_num) false [] id

/-! Section: Output-replacement search
(`GPTQTrainer._get_model_output_replacement`,
`gptq/common/gptq_training.py`, lines 231-250) -/

/-- The slice of the float graph that the output-replacement search
reads: the output nodes, each node's list of direct predecessors
(`get_prev_nodes`), and the framework predicate
`is_node_compatible_for_metric_outputs`.  Nodes are opaque names. -/
structure FloatGraph where
  outputs : List ℕ
  prev_nodes : ℕ → List ℕ
  compatible : ℕ → Bool

/-- Outcome of the per-output search loop: a replacement node, a failed
assertion (`len(prev_node) == 1`), or exhaustion of the step budget —
the source loop has no budget, so `fuelOut` for every budget means the
loop never terminates. -/
inductive ReplResult where
  | found (n : ℕ)
  | assertFail
  | fuelOut
deriving DecidableEq, Repr

/-- Embedding of the `while` loop of `_get_model_output_replacement` for
one output node `out`, with an explicit step budget.  Faithful to the
source, each iteration re-reads the predecessors of the ORIGINAL output
node (`self.graph_float.get_prev_nodes(n.node)`), not of the current
node `cur`. -/
def replLoop (g : FloatGraph) (out : ℕ) : ℕ → ℕ → ReplResult
  | 0, _ => .fuelOut
  | fuel + 1, cur =>
      if g.compatible cur then .found cur
      else
        match g.prev_nodes out with
        | [p] => replLoop g out fuel p
        | _ => .assertFail

/-- Modelled from the spec: the intended search — "replaced by the
nearest eligible predecessor" (spec 4.1) — walks the predecessor chain
of the CURRENT node, failing on any node with more than one direct
predecessor.  This is the loop of `_get_model_output_replacement` with
`get_prev_nodes` applied to the current node instead of the original
output node. -/
def replLoopSpec (g : FloatGraph) : ℕ → ℕ → ReplResult
  | 0, _ => .fuelOut
  | fuel + 1, cur =>
      if g.compatible cur then .found cur
      else
        match g.prev_nodes cur with
        | [p] => replLoopSpec g fuel p
        | _ => .assertFail

/-- A three-node chain `2 → 1 → 0` whose output node `0` and direct
predecessor `1` are incompatible for metric outputs, while the
grandparent `2` is compatible. -/
def chainGraph : FloatGraph where
  outputs := [0]
  prev_nodes := fun n => if n = 0 then [1] else if n = 1 then [2] else []
  compatible := fun n => decide (n = 2)

/-- Claim C6 is the spec's intent but the code violates it: on
`chainGraph` the source loop never terminates — for every step budget it
ends in `fuelOut`, never returning a node and never failing the
assertion — because it re-reads the predecessors of the output node each
iteration and therefore revisits node `1` forever; the intended search
(`replLoopSpec`) returns the nearest compatible ancestor, node `2`, in
three steps. -/
theorem C6_output_replacement_nontermination :
    (∀ fuel : ℕ, replLoop chainGraph 0 fuel 0 = .fuelOut) ∧
      replLoopSpec chainGraph 3 0 = .found 2 := by
  have h1 : ∀ fuel : ℕ, replLoop chainGraph 0 fuel 1 = .fuelOut := by
    intro fuel
    induction fuel with
    | zero => rfl
    | succ n ih =>
        have hstep : replLoop chainGraph 0 (n + 1) 1
            = replLoop chainGraph 0 n 1 := rfl
        rw [hstep, ih]
  refine ⟨?_, by rfl⟩
  intro fuel
  cases fuel with
  | zero => rfl
  | succ n =>
      have hstep : replLoop chainGraph 0 (n + 1) 0
          = replLoop chainGraph 0 n 1 := rfl
      rw [hstep, h1]

/-! Section: Training loops (`gptq/keras/gptq_training.py` lines 214-230 and
286 area, `gptq/pytorch/gptq_training.py` lines 139-160, 204-228) -/

/-- `has_params_to_train` (keras gptq_training.py lines 107-108): true
iff the total number of parameters across the optimizer groups is
positive. -/
def has_params_to_train (groups : List (Option ℕ × List ℕ)) : Bool :=
  decide (0 < (groups.map (fun g => g.2.length)).sum)

/-- Observable effects of one `train` call: the in-memory loss history
and the number of `optimizer step` invocations. -/
structure TrainTrace where
  loss_list : List ℚ
  optimizer_steps : ℕ
deriving DecidableEq, Repr

/-- Skeleton of `micro_training_loop` (identical in both concrete
trainers): for each of `n_epochs` passes over the representative data,
every batch appends its loss value to the history and steps each
optimizer group once.  The loss computation itself is opaque:
`batch_losses` lists the loss produced for each batch of one epoch. -/
def micro_training_loop (groups : List (Option ℕ × List ℕ)) (n_epochs : ℕ)
    (batch_losses : List ℚ) : TrainTrace where
  loss_list := (List.replicate n_epochs batch_losses).flatten
  optimizer_steps := n_epochs * batch_losses.length * groups.length

/-- `KerasGPTQTrainer.train` (lines 214-230): the micro training loop
runs only when `has_params_to_train` holds; otherwise nothing happens. -/
def keras_train (groups : List (Option ℕ × List ℕ)) (n_epochs : ℕ)
    (batch_losses : List ℚ) : TrainTrace :=
  if has_params_to_train groups then
    micro_training_loop groups n_epochs batch_losses
  else
    { loss_list := [], optimizer_steps := 0 }

/-- `PytorchGPTQTrainer.train` (lines 139-160): after binding the
parameter groups to the optimizers, the micro training loop runs
unconditionally — there is no `has_params_to_train` guard. -/
def pytorch_train (groups : List (Option ℕ × List ℕ)) (n_epochs : ℕ)
    (batch_losses : List ℚ) : TrainTrace :=
  micro_training_loop groups n_epochs batch_losses

/-- Claim C5 as frozen is false at a concrete input: with one optimizer
group holding no parameters, one epoch and one batch, the PyTorch
trainer still enters the inner loop and appends the batch loss, so the
loss history is `[5]`, not empty (and each optimizer is stepped once
over its empty parameter list). -/
theorem C5_counterexample :
    (pytorch_train [(some 0, [])] 1 [5]).loss_list = [5] ∧
      (pytorch_train [(some 0, [])] 1 [5]).optimizer_steps = 1 ∧
      ([5] : List ℚ) ≠ [] := by
  refine ⟨?_, rfl, by simp⟩
  simp [pytorch_train, micro_training_loop]

/-- Claim C5 (amended): when every optimizer group's parameter list is
empty, the Keras trainer's `train` is a silent no-op — the loop is never
entered, no optimizer is stepped and the loss history stays empty — but
the PyTorch trainer enters the loop unconditionally: it appends one loss
per batch per epoch (stepping each optimizer over its empty parameter
list), and neither trainer fails. -/
theorem C5_empty_groups_training (groups : List (Option ℕ × List ℕ))
    (n_epochs : ℕ) (batch_losses : List ℚ)
    (hempty : ∀ g ∈ groups, g.2 = []) :
    keras_train groups n_epochs batch_losses
        = { loss_list := [], optimizer_steps := 0 } ∧
      (pytorch_train groups n_epochs batch_losses).loss_list
        = (List.replicate n_epochs batch_losses).flatten := by
  have hsum : (groups.map (fun g => g.2.length)).sum = 0 := by
    apply List.sum_eq_zero
    intro x hx
    obtain ⟨g, hg, rfl⟩ := List.mem_map.1 hx
    simp [hempty g hg]
  have hguard : has_params_to_train groups = false := by
    simp [has_params_to_train, hsum]
  exact ⟨by simp [keras_train, hguard], rfl⟩

/-- Witness for claim C5's amended theorem: two empty groups, two
epochs, one batch. -/
theorem C5_witness :
    keras_train [(some 0, []), (none, [])] 2 [3]
        = { loss_list := [], optimizer_steps := 0 } ∧
      (pytorch_train [(some 0, []), (none, [])] 2 [3]).loss_list
        = (List.replicate 2 [3]).flatten :=
  C5_empty_groups_training [(some 0, []), (none, [])] 2 [3] (by decide)

/-! Section: Graph update round trip (`STEWeightGPTQQuantizer.get_quant_config`,
symmetric_ste.py lines 201-211; `update_layer_quantization_params`,
base_keras_gptq_quantizer.py lines 50-73; `KerasGPTQTrainer.update_graph`,
keras gptq_training.py lines 288-321) -/

/-- A numeric array: a shape and its flat row-major data. -/
structure QTensor where
  shape : List ℕ
  data : List ℚ
deriving DecidableEq, Repr

/-- `np.ndarray.reshape`: preserves the flat data, re-tags the shape,
and raises (here `none`) when the element count does not match. -/
def np_reshape (d : List ℚ) (s : List ℕ) : Option QTensor :=
  if d.length = s.prod then some ⟨s, d⟩ else none

/-- Key under which a node's threshold is stored
(`core/common/constants.THRESHOLD`). -/
def THRESHOLD : String := "threshold"

/-- Key under which the weights-quantization parameters are stored
(`gptq/common/gptq_constants.WEIGHTS_QUANTIZATION_PARAMS`). -/
def WEIGHTS_QUANTIZATION_PARAMS : String := "weights_quantization_params"

/-- State of a trained `STEWeightGPTQQuantizer` read by the updater:
the original threshold shape recorded at construction and the current
(flattened) values of the threshold variable. -/
structure STEQuantizerState where
  threshold_shape : List ℕ
  threshold_param : List ℚ
deriving DecidableEq, Repr

/-- `STEWeightGPTQQuantizer.get_quant_config` (symmetric_ste.py lines
201-211): the current threshold variable values, reshaped to the
original threshold shape, under the `THRESHOLD` key. -/
def get_quant_config (q : STEQuantizerState) :
    Option (List (String × QTensor)) :=
  (np_reshape q.threshold_param q.threshold_shape).map
    (fun t => [(THRESHOLD, t)])

/-- `BaseKerasGPTQTrainableQuantizer.update_layer_quantization_params`
(base_keras_gptq_quantizer.py lines 50-73): the (opaque) quantized
weights, the weights-config dictionary
`{WEIGHTS_QUANTIZATION_PARAMS: get_quant_config()}`, and an EMPTY
activation-config dictionary. -/
def update_layer_quantization_params (q : STEQuantizerState)
    (weights : List (String × QTensor)) :
    Option (List (String × QTensor)
      × List (String × List (String × QTensor))
      × List (String × List (String × QTensor))) :=
  (get_quant_config q).map
    (fun c => (weights, [(WEIGHTS_QUANTIZATION_PARAMS, c)], []))

/-- Set an attribute in an attribute map, replacing an existing binding
of the same name. -/
def setAttr {β : Type} : List (String × β) → String → β → List (String × β)
  | [], k, v => [(k, v)]
  | (k0, v0) :: rest, k, v =>
      if k0 = k then (k, v) :: rest else (k0, v0) :: setAttr rest k v

/-- Read an attribute from an attribute map. -/
def getAttr {β : Type} : List (String × β) → String → Option β
  | [], _ => none
  | (k0, v0) :: rest, k => if k0 = k then some v0 else getAttr rest k

/-- Apply a dictionary of attribute updates in order (the
`for config_attr, config_value in ...items(): set_quant_config_attr`
loops of `update_graph`). -/
def applyAttrs {β : Type} (m : List (String × β))
    (updates : List (String × β)) : List (String × β) :=
  updates.foldl (fun acc kv => setAttr acc kv.1 kv.2) m

/-- A graph node as seen by the updater.  Modelled from the spec: the
node's two quantization-config sub-records are "each a mapping of
attribute name → value" (spec section 3) and `set_quant_config_attr`
updates one binding; the node classes are outside the sampled
sources. -/
structure GNode where
  node_weights : List (String × QTensor)
  final_weights_quantization_cfg : List (String × List (String × QTensor))
  final_activation_quantization_cfg : List (String × List (String × QTensor))
deriving DecidableEq, Repr

/-- Per-layer body of `KerasGPTQTrainer.update_graph` (keras
gptq_training.py lines 307-314): obtain the three update dictionaries
from the layer's weight quantizer and fold them into the node's
weights, weights-quantization config and activation-quantization
config. -/
def update_node (n : GNode) (q : STEQuantizerState)
    (weights : List (String × QTensor)) : Option GNode :=
  (update_layer_quantization_params q weights).map (fun r =>
    { node_weights := applyAttrs n.node_weights r.1,
      final_weights_quantization_cfg :=
        applyAttrs n.final_weights_quantization_cfg r.2.1,
      final_activation_quantization_cfg :=
        applyAttrs n.final_activation_quantization_cfg r.2.2 })

/-- Setting an attribute makes it readable with exactly that value. -/
theorem getAttr_setAttr {β : Type} (m : List (String × β)) (k : String)
    (v : β) : getAttr (setAttr m k v) k = some v := by
  induction m with
  | nil => simp [setAttr, getAttr]
  | cons kv rest ih =>
      by_cases h : kv.1 = k
      · simp [setAttr, getAttr, h]
      · simp [setAttr, getAttr, h, ih]

/-- Claim C8: whenever the quantizer's flattened threshold variable
matches the element count of the original threshold shape (the shape
invariant maintained by `initialize_quantization`), the Graph Updater
succeeds and re-reading the threshold from the node's final
weights-quantization config yields exactly the values held by the
quantizer's threshold parameter immediately before the update, reshaped
to the original threshold shape with no truncation or value change. -/
theorem C8_threshold_round_trip (n : GNode) (q : STEQuantizerState)
    (weights : List (String × QTensor))
    (h : q.threshold_param.length = q.threshold_shape.prod) :
    ∃ n2, update_node n q weights = some n2 ∧
      ∃ c, getAttr n2.final_weights_quantization_cfg
          WEIGHTS_QUANTIZATION_PARAMS = some c ∧
        getAttr c THRESHOLD
          = some ⟨q.threshold_shape, q.threshold_param⟩ := by
  have hq : get_quant_config q
      = some [(THRESHOLD, ⟨q.threshold_shape, q.threshold_param⟩)] := by
    simp [get_quant_config, np_reshape, h]
  have hupd : update_node n q weights = some
      { node_weights := applyAttrs n.node_weights weights,
        final_weights_quantization_cfg :=
          applyAttrs n.final_weights_quantization_cfg
            [(WEIGHTS_QUANTIZATION_PARAMS,
              [(THRESHOLD, ⟨q.threshold_shape, q.threshold_param⟩)])],
        final_activation_quantization_cfg :=
          applyAttrs n.final_activation_quantization_cfg [] } := by
    simp [update_node, update_layer_quantization_params, hq]
  refine ⟨_, hupd, ?_⟩
  refine ⟨[(THRESHOLD, ⟨q.threshold_shape, q.threshold_param⟩)], ?_, ?_⟩
  · simpa [applyAttrs] using
      getAttr_setAttr n.final_weights_quantization_cfg
        WEIGHTS_QUANTIZATION_PARAMS
        [(THRESHOLD, ⟨q.threshold_shape, q.threshold_param⟩)]
  · simp [getAttr]

/-- Witness for claim C8's theorem at a concrete quantizer state with
threshold shape `[2]` and trained values `[3, 4]`. -/
theorem C8_witness :
    ∃ n2, update_node ⟨[], [], []⟩ ⟨[2], [3, 4]⟩ [] = some n2 ∧
      ∃ c, getAttr n2.final_weights_quantization_cfg
          WEIGHTS_QUANTIZATION_PARAMS = some c ∧
        getAttr c THRESHOLD = some ⟨[2], [3, 4]⟩ :=
  C8_threshold_round_trip ⟨[], [], []⟩ ⟨[2], [3, 4]⟩ [] rfl

/-- Claim C10: `update_layer_quantization_params` always returns an
empty activation-quantization-config dictionary, so `update_graph`
leaves the node's `final_activation_quantization_cfg` unchanged — only
the weights and the weights-quantization config are mutated. -/
theorem C10_activation_config_untouched (n : GNode) (q : STEQuantizerState)
    (weights : List (String × QTensor))
    (h : q.threshold_param.length = q.threshold_shape.prod) :
    (∃ r, update_layer_quantization_params q weights = some r ∧
        r.2.2 = []) ∧
      ∃ n2, update_node n q weights = some n2 ∧
        n2.final_activation_quantization_cfg
          = n.final_activation_quantization_cfg := by
  have hq : get_quant_config q
      = some [(THRESHOLD, ⟨q.threshold_shape, q.threshold_param⟩)] := by
    simp [get_quant_config, np_reshape, h]
  have hlayer : update_layer_quantization_params q weights = some
      (weights,
        [(WEIGHTS_QUANTIZATION_PARAMS,
          [(THRESHOLD, ⟨q.threshold_shape, q.threshold_param⟩)])],
        []) := by
    simp [update_layer_quantization_params, hq]
  have hupd : update_node n q weights = some
      { node_weights := applyAttrs n.node_weights weights,
        final_weights_quantization_cfg :=
          applyAttrs n.final_weights_quantization_cfg
            [(WEIGHTS_QUANTIZATION_PARAMS,
              [(THRESHOLD, ⟨q.threshold_shape, q.threshold_param⟩)])],
        final_activation_quantization_cfg :=
          applyAttrs n.final_activation_quantization_cfg [] } := by
    simp [update_node, hlayer]
  exact ⟨⟨_, hlayer, rfl⟩, ⟨_, hupd, by simp [applyAttrs]⟩⟩

/-- Witness for claim C10's theorem at a concrete node with a non-empty
activation config that must survive the update unchanged. -/
theorem C10_witness :
    (∃ r, update_layer_quantization_params ⟨[1], [9]⟩ [] = some r ∧
        r.2.2 = []) ∧
      ∃ n2, update_node ⟨[], [], [("signed", [])]⟩ ⟨[1], [9]⟩ []
          = some n2 ∧
        n2.final_activation_quantization_cfg = [("signed", [])] :=
  C10_activation_config_untouched ⟨[], [], [("signed", [])]⟩ ⟨[1], [9]⟩ []
    rfl

end GPTQ
